import Mathlib

/-!
Shallow embedding of the jkh-server inspection workflow core:
the task status state machine (`pkg/service/task.go`), the inspection
result store (`pkg/service` checklist-result service) and the inspection
act generator (`pkg/service/inspectionact.go`), together with the ent
schemas they operate on.

The persistent store (ent client over SQL) is modelled as an explicit
state (`DB` inside `World`); each service method becomes a function from
a `World` to a result paired with the next `World`.  Infrastructure
steps that can fail at runtime and whose failure the specification talks
about (font loading, PDF output, result loading, file writing, the
document-path update) are given explicit outcome flags in `Env`; the
remaining store operations are modelled as total updates of the state.
Physical time (`time.Now()`) is the `now` field of `Env`.
-/

deriving instance DecidableEq for Except

namespace JKH

/-- Task lifecycle statuses, from `ent/schema/task.go`
(`Statuses = ["New", "Pending", "InProgress", "OnReview", "ForRevision",
"Approved", "Canceled"]`). -/
inductive Status where
  | New
  | Pending
  | InProgress
  | OnReview
  | ForRevision
  | Approved
  | Canceled
deriving DecidableEq

/-- Condition of one inspected element, from `ent/schema/inspectionresult.go`
(`ConditionStatuses`); the constructors stand for the four Russian labels
in schema order, rendered by `conditionLabel`. -/
inductive ConditionStatus where
  | sound
  | satisfactory
  | unsatisfactory
  | emergency
deriving DecidableEq

/-- The enum label stored in the DB and printed into the PDF results table
(`string(r.ConditionStatus)` in `generatePDF`). -/
def conditionLabel : ConditionStatus → String
  | .sound => "Исправное"
  | .satisfactory => "Удовлетворительное"
  | .unsatisfactory => "Неудовлетворительное"
  | .emergency => "Аварийное"

/-- A `time.Time` instant: whole seconds plus a sub-second part.  Go's
`Format("20060102_150405")` only depends on (and determines) the whole
second, which is all the embedding needs. -/
structure GoTime where
  sec : Nat
  nsec : Nat
deriving DecidableEq

/-- A `Task` row (`ent/schema/task.go`); only the columns the verified
operations read or write are carried (title, priority, description and
the timestamps are never consulted by the state machine, the result
store or the act generator guards). -/
structure Task where
  id : Nat
  buildingId : Nat
  checklistId : Nat
  inspectorId : Nat
  status : Status
deriving DecidableEq

/-- A `ChecklistElement` row (`ent/schema/checklistelement.go`): the link
table entry tying element `elementId` of the catalog into checklist
`checklistId` at position `orderIndex`. -/
structure ChecklistElement where
  id : Nat
  checklistId : Nat
  elementId : Nat
  orderIndex : Nat
deriving DecidableEq

/-- An `ElementCatalog` row: the display name used in the PDF results
table (`r.Edges.ChecklistElement.Edges.ElementCatalog.Name`). -/
structure ElementCatalogItem where
  id : Nat
  name : String
deriving DecidableEq

/-- An `InspectionResult` row (`ent/schema/inspectionresult.go`).  The
`comment` column is `Optional` (non-nillable), so its Go zero value is
the empty string; `ClearComment` stores `""`. -/
structure InspectionResult where
  taskId : Nat
  checklistElementId : Nat
  conditionStatus : ConditionStatus
  comment : String
deriving DecidableEq

/-- An `InspectionAct` row (`ent/schema/inspectionact.go`): `approvedAt`
is optional (`none` is Go's zero `time.Time`, tested by `IsZero`);
`documentPath` is optional with zero value `""`. -/
structure InspectionAct where
  taskId : Nat
  createdAt : GoTime
  approvedAt : Option GoTime
  status : String
  conclusion : String
  documentPath : String
deriving DecidableEq

/-- One line of the results table of the rendered act
(`generatePDF`, the `for i, r := range results` loop). -/
structure ResultRow where
  seq : Nat
  elementName : String
  condition : String
  comment : String
deriving DecidableEq

/-- The data content of a rendered act document.  The fixed headings,
fonts and page geometry of the PDF are constant; a `Document` carries
the parts that vary with the data: the act metadata section, the results
table and the conclusion section (with its fallback), plus the signature
date (day granularity of `time.Now()`). -/
structure Document where
  actCreatedAt : GoTime
  actStatus : String
  approvedAt : Option GoTime
  conclusion : String
  rows : List ResultRow
  signatureDay : Nat
deriving DecidableEq

/-- The persistent store: one list per table, in storage (insertion)
order — the order an unordered ent `All(ctx)` query returns rows in. -/
structure DB where
  tasks : List Task
  checklistElements : List ChecklistElement
  elementCatalog : List ElementCatalogItem
  results : List InspectionResult
  acts : List InspectionAct
deriving DecidableEq

/-- The world a request runs against: the database plus the durable
document storage (path to rendered document). -/
structure World where
  db : DB
  fs : List (String × Document)
deriving DecidableEq

/-- Per-request environment: the current instant (`time.Now()`) and the
outcome of each infrastructure step that can fail — `true` means the
step succeeds, `false` that it returns an error. -/
structure Env where
  now : GoTime
  fontRegularOk : Bool
  fontBoldOk : Bool
  outputOk : Bool
  loadResultsOk : Bool
  writeFileOk : Bool
  setDocPathOk : Bool
deriving DecidableEq

/-- Typed errors of the verified services: the sentinel errors of
`pkg/service` plus one constructor per distinct wrapped failure. -/
inductive SvcErr where
  | taskNotFound
  | invalidStatusTransition
  | taskNotInProgress
  | checklistElementInvalid
  | resultNotFound
  | actNotFound
  | databaseError
  | fontLoadError
  | pdfOutputError
  | fetchResultsError
  | saveFileError
  | taskEdgeNotLoaded
deriving DecidableEq

/-! ## The task FSM (`pkg/service/task.go`) -/

/-- `allowedTransitions` of `pkg/service/task.go:36` — the permitted
target statuses of each source status. -/
def allowedTransitions : Status → List Status
  | .New => [.Pending, .Canceled]
  | .Pending => [.InProgress, .Canceled]
  | .InProgress => [.OnReview, .Canceled]
  | .OnReview => [.Approved, .ForRevision]
  | .ForRevision => [.OnReview, .Canceled]
  | .Approved => []
  | .Canceled => []

/-- `isTransitionAllowed` of `pkg/service/task.go:47`: linear scan of the
allowed-target list.  (The `!exists` branch of the Go map lookup is dead:
every status is a key of the map, which the total match above mirrors.) -/
def isTransitionAllowed (currentStatus newStatus : Status) : Bool :=
  (allowedTransitions currentStatus).contains newStatus

/-! ## Store queries -/

/-- `Task.Query().Where(task.IDEQ(id)).Only(ctx)`: the task with this id
(primary key, hence first match). -/
def findTask (db : DB) (id : Nat) : Option Task :=
  db.tasks.find? (fun t => t.id == id)

/-- The results recorded for a task, in storage order — the unordered
`InspectionResult.Query().Where(TaskIDEQ(taskID)).All(ctx)`. -/
def resultsForTask (db : DB) (taskId : Nat) : List InspectionResult :=
  db.results.filter (fun r => r.taskId == taskId)

/-- The result rows for one (task, element) pair, in storage order. -/
def resultsForPair (db : DB) (taskId checklistElementId : Nat) : List InspectionResult :=
  db.results.filter (fun r => r.taskId == taskId && r.checklistElementId == checklistElementId)

/-- The act rows of one task, in storage order (`task_id` carries a
unique constraint, so a well-formed store has at most one). -/
def actsForTask (db : DB) (taskId : Nat) : List InspectionAct :=
  db.acts.filter (fun a => a.taskId == taskId)

/-- `InspectionResult...Only(ctx)` guarded by `IsNotFound`: `none` when no
row matches, an error when the unique constraint is violated. -/
def onlyResult (db : DB) (taskId checklistElementId : Nat) :
    Except SvcErr (Option InspectionResult) :=
  match resultsForPair db taskId checklistElementId with
  | [] => .ok none
  | [r] => .ok (some r)
  | _ => .error .databaseError

/-- `InspectionAct...Only(ctx)` guarded by `IsNotFound`. -/
def onlyAct (db : DB) (taskId : Nat) : Except SvcErr (Option InspectionAct) :=
  match actsForTask db taskId with
  | [] => .ok none
  | [a] => .ok (some a)
  | _ => .error .databaseError

/-- `checklistelement.IDEQ(elementID) ∧ ChecklistIDEQ(checklistID)`
existence query of `validateTaskAndElement`. -/
def elementInChecklist (db : DB) (checklistId checklistElementId : Nat) : Bool :=
  db.checklistElements.any
    (fun ce => ce.id == checklistElementId && ce.checklistId == checklistId)

/-! ## Document storage (the `storage/acts` directory) -/

/-- `os.ReadFile`: the document stored at `path`, if any. -/
def readFile (fs : List (String × Document)) (path : String) : Option Document :=
  (fs.find? (fun e => e.1 == path)).map (fun e => e.2)

/-- `os.WriteFile`: store (or overwrite) the document at `path`. -/
def writeFile (fs : List (String × Document)) (path : String) (doc : Document) :
    List (String × Document) :=
  (path, doc) :: fs.filter (fun e => e.1 != path)

/-- `os.Remove`: drop the entry at `path` (removing a missing file is the
error branch the service logs and ignores). -/
def removeFile (fs : List (String × Document)) (path : String) :
    List (String × Document) :=
  fs.filter (fun e => e.1 != path)

/-- `filepath.Join(s.StoragePath, filename)` for the slash-free relative
components the service produces. -/
def joinPath (dir file : String) : String :=
  dir ++ "/" ++ file

/-- `filepath.Base`: the final path component. -/
def baseName (path : String) : String :=
  (path.splitOn "/").getLastD path

/-- The storage path every construction site passes
(`NewInspectionActService(client, "storage/acts")`). -/
def storageActs : String := "storage/acts"

/-! ## PDF rendering (`generatePDF`, `pkg/service/inspectionact.go:263`) -/

/-- `'0' + d` — the character of one decimal digit. -/
def digitChar (d : Nat) : Char := Char.ofNat (48 + d)

/-- Go's `Format("20060102_150405")`, abstracted to its information
content: a decimal rendering of the whole-second instant.  Like the Go
layout it depends only on `sec` and determines `sec`. -/
def formatSeconds (t : GoTime) : String :=
  String.mk (((Nat.digits 10 t.sec).reverse).map digitChar)

/-- `fmt.Sprintf("act_%d_%s.pdf", act.TaskID, time.Now().Format("20060102_150405"))`
(`inspectionact.go:429`). -/
def actFilename (taskId : Nat) (now : GoTime) : String :=
  "act_" ++ toString taskId ++ "_" ++ formatSeconds now ++ ".pdf"

/-- The element name printed in a results row: the `ChecklistElement` →
`ElementCatalog` edges loaded with the result (`""` when an edge is
absent, as in the Go nil checks). -/
def elementName (ces : List ChecklistElement) (cat : List ElementCatalogItem)
    (r : InspectionResult) : String :=
  match ces.find? (fun ce => ce.id == r.checklistElementId) with
  | none => ""
  | some ce =>
    match cat.find? (fun ec => ec.id == ce.elementId) with
    | none => ""
    | some ec => ec.name

/-- The `for i, r := range results` loop of `generatePDF`: one table row
per result, in the order of the `results` slice, numbered from `i+1`. -/
def buildRows (ces : List ChecklistElement) (cat : List ElementCatalogItem) :
    Nat → List InspectionResult → List ResultRow
  | _, [] => []
  | i, r :: rs =>
    { seq := i + 1
      elementName := elementName ces cat r
      condition := conditionLabel r.conditionStatus
      comment := r.comment } :: buildRows ces cat (i + 1) rs

/-- The conclusion fallback of `generatePDF` when the act's conclusion is
empty. -/
def fallbackConclusion : String :=
  "Осмотр выполнен. Результаты представлены в таблице выше."

/-- The data content `generatePDF` lays out for a given act and result
slice. -/
def renderedDocument (env : Env) (ces : List ChecklistElement)
    (cat : List ElementCatalogItem) (act : InspectionAct)
    (results : List InspectionResult) : Document :=
  { actCreatedAt := act.createdAt
    actStatus := act.status
    approvedAt := act.approvedAt
    conclusion := if act.conclusion == "" then fallbackConclusion else act.conclusion
    rows := buildRows ces cat 0 results
    signatureDay := env.now.sec / 86400 }

/-- `generatePDF` (`inspectionact.go:263`): requires the task edge to be
loaded, loads the two fonts, lays the document out and serializes it;
each step's failure is surfaced to the caller.  Returns the document and
the timestamped filename. -/
def generatePDF (env : Env) (db : DB) (act : InspectionAct)
    (results : List InspectionResult) : Except SvcErr (Document × String) :=
  match findTask db act.taskId with
  | none => .error .taskEdgeNotLoaded
  | some _ =>
    if !env.fontRegularOk then .error .fontLoadError
    else if !env.fontBoldOk then .error .fontLoadError
    else if !env.outputOk then .error .pdfOutputError
    else
      .ok (renderedDocument env db.checklistElements db.elementCatalog act results,
           actFilename act.taskId env.now)

/-! ## Inspection act service (`pkg/service/inspectionact.go`) -/

/-- The act status the service writes at creation ("создан", the drafted
state) and at approval ("утверждён"). -/
def draftedStatus : String := "создан"

/-- See `draftedStatus`. -/
def approvedActStatus : String := "утверждён"

/-- The fixed conclusion `ApproveAct` writes. -/
def approvedConclusion : String := "Акт осмотра утверждён координатором."

/-- The default conclusion `UpdateTaskStatus` supplies on the transition
into `OnReview` (`task.go:327`). -/
def draftConclusion : String := "Осмотр выполнен. Ожидает проверки координатором."

/-- Apply `f` to the act row(s) of `taskId` — an ent `UpdateOne` keyed by
the unique `task_id`. -/
def updateActs (db : DB) (taskId : Nat) (f : InspectionAct → InspectionAct) : DB :=
  { db with acts := db.acts.map (fun a => if a.taskId == taskId then f a else a) }

/-- The `SetConclusion(conclusion)` update of `CreateOrUpdateAct`. -/
def setConclusion (conclusion : String) (x : InspectionAct) : InspectionAct :=
  { x with conclusion := conclusion }

/-- The `SetApprovedAt(now).SetStatus("утверждён").SetConclusion(...)`
commit of `ApproveAct` step 2. -/
def commitApproval (env : Env) (x : InspectionAct) : InspectionAct :=
  { x with approvedAt := some env.now, status := approvedActStatus,
           conclusion := approvedConclusion }

/-- The `SetDocumentPath(fullPath)` update recording a rendered file. -/
def setDocPath (fullPath : String) (x : InspectionAct) : InspectionAct :=
  { x with documentPath := fullPath }

/-- `CreateOrUpdateAct` (`inspectionact.go:56`): if an act row exists for
the task, overwrite its conclusion only; otherwise insert a fresh act in
the drafted state with the given conclusion and no document. -/
def createOrUpdateAct (env : Env) (w : World) (taskId : Nat) (conclusion : String) :
    Except SvcErr InspectionAct × World :=
  match onlyAct w.db taskId with
  | .error e => (.error e, w)
  | .ok (some a) =>
    (.ok { a with conclusion := conclusion },
     { w with db := updateActs w.db taskId (setConclusion conclusion) })
  | .ok none =>
    let a : InspectionAct :=
      { taskId := taskId
        createdAt := env.now
        approvedAt := none
        status := draftedStatus
        conclusion := conclusion
        documentPath := "" }
    (.ok a, { w with db := { w.db with acts := w.db.acts ++ [a] } })

/-- `ApproveAct` (`inspectionact.go:93`): load the act (`ActNotFound` if
absent), commit approval timestamp, approved status and the fixed
conclusion, then best-effort: delete the old document file, reload the
results, regenerate the PDF, write it and record its path — every
failure after the commit is logged and swallowed (`return nil`). -/
def approveAct (env : Env) (w : World) (taskId : Nat) : Except SvcErr Unit × World :=
  match onlyAct w.db taskId with
  | .error e => (.error e, w)
  | .ok none => (.error .actNotFound, w)
  | .ok (some act) =>
    let act' : InspectionAct := commitApproval env act
    let db1 := updateActs w.db taskId (commitApproval env)
    let fs1 := if act.documentPath != "" then removeFile w.fs act.documentPath else w.fs
    let w1 : World := { db := db1, fs := fs1 }
    if !env.loadResultsOk then (.ok (), w1)
    else
      match generatePDF env db1 act' (resultsForTask db1 taskId) with
      | .error _ => (.ok (), w1)
      | .ok (doc, filename) =>
        let fullPath := joinPath storageActs filename
        if !env.writeFileOk then (.ok (), w1)
        else
          let w2 : World := { w1 with fs := writeFile w1.fs fullPath doc }
          if !env.setDocPathOk then (.ok (), w2)
          else
            (.ok (), { w2 with db := updateActs w2.db taskId (setDocPath fullPath) })

/-- The cache probe of `GeneratePDFForAct`: the stored document, when the
pointer is set and the file is readable. -/
def cachedDocument (w : World) (act : InspectionAct) : Option Document :=
  if act.documentPath != "" then readFile w.fs act.documentPath else none

/-- `GeneratePDFForAct` (`inspectionact.go:188`): `ActNotFound` if no act
exists; return the stored document unchanged on a cache hit; otherwise
load the results, render, persist the file and record its path, and
return the fresh document — load, render and write failures are
surfaced, only the final path-record failure is logged and swallowed. -/
def generatePDFForAct (env : Env) (w : World) (taskId : Nat) :
    Except SvcErr (Document × String) × World :=
  match onlyAct w.db taskId with
  | .error e => (.error e, w)
  | .ok none => (.error .actNotFound, w)
  | .ok (some act) =>
    match cachedDocument w act with
    | some doc => (.ok (doc, baseName act.documentPath), w)
    | none =>
      if !env.loadResultsOk then (.error .fetchResultsError, w)
      else
        match generatePDF env w.db act (resultsForTask w.db taskId) with
        | .error e => (.error e, w)
        | .ok (doc, filename) =>
          let fullPath := joinPath storageActs filename
          if !env.writeFileOk then (.error .saveFileError, w)
          else
            let w1 : World := { w with fs := writeFile w.fs fullPath doc }
            if !env.setDocPathOk then (.ok (doc, filename), w1)
            else
              (.ok (doc, filename),
               { w1 with db := updateActs w1.db taskId (setDocPath fullPath) })

/-! ## Task state machine service (`pkg/service/task.go`) -/

/-- The `SetStatus(newStatus)` update of `UpdateTaskStatus` step 3. -/
def setTaskStatus (w : World) (id : Nat) (newStatus : Status) : World :=
  let tasks' := w.db.tasks.map
    (fun t => if t.id == id then { t with status := newStatus } else t)
  { w with db := { w.db with tasks := tasks' } }

/-- `UpdateTaskStatus` (`task.go:296`), the `RequestTransition` contract:
`TaskNotFound` if the task is absent; `InvalidStatusTransition` when the
FSM forbids the pair; otherwise persist the new status and then run the
target-selected side effect — the act draft on `OnReview`, the act
approval on `Approved` — whose failure is logged and swallowed. -/
def updateTaskStatus (env : Env) (w : World) (id : Nat) (newStatus : Status) :
    Except SvcErr Unit × World :=
  match findTask w.db id with
  | none => (.error .taskNotFound, w)
  | some t =>
    if !isTransitionAllowed t.status newStatus then (.error .invalidStatusTransition, w)
    else
      let w1 := setTaskStatus w id newStatus
      let w2 := if newStatus == .OnReview
        then (createOrUpdateAct env w1 id draftConclusion).2 else w1
      let w3 := if newStatus == .Approved
        then (approveAct env w2 id).2 else w2
      (.ok (), w3)

/-! ## Inspection result service (`pkg/service`, checklist-result file) -/

/-- `validateTaskAndElement`: the task exists, is `InProgress`, and the
element belongs to the task's checklist — in that order. -/
def validateTaskAndElement (db : DB) (taskId checklistElementId : Nat) :
    Except SvcErr Unit :=
  match findTask db taskId with
  | none => .error .taskNotFound
  | some t =>
    if t.status != .InProgress then .error .taskNotInProgress
    else if elementInChecklist db t.checklistId checklistElementId then .ok ()
    else .error .checklistElementInvalid

/-- `CreateOrUpdateResult` (the `UpsertResult` contract): after
validation, overwrite the existing (task, element) row's condition and
comment (clearing the comment when none is supplied) or insert a fresh
row; the stored row is re-read and returned. -/
def createOrUpdateResult (w : World) (taskId checklistElementId : Nat)
    (conditionStatus : ConditionStatus) (comment : Option String) :
    Except SvcErr InspectionResult × World :=
  match validateTaskAndElement w.db taskId checklistElementId with
  | .error e => (.error e, w)
  | .ok _ =>
    match onlyResult w.db taskId checklistElementId with
    | .error e => (.error e, w)
    | .ok (some _) =>
      let db' := { w.db with results := w.db.results.map (fun r =>
        if r.taskId == taskId && r.checklistElementId == checklistElementId
        then { r with conditionStatus := conditionStatus, comment := comment.getD "" }
        else r) }
      (.ok { taskId := taskId, checklistElementId := checklistElementId,
             conditionStatus := conditionStatus, comment := comment.getD "" },
       { w with db := db' })
    | .ok none =>
      let r : InspectionResult :=
        { taskId := taskId, checklistElementId := checklistElementId,
          conditionStatus := conditionStatus, comment := comment.getD "" }
      (.ok r, { w with db := { w.db with results := w.db.results ++ [r] } })

/-! ## Concrete fixtures (used by witnesses and counterexamples) -/

/-- A fixed instant. -/
def t0 : GoTime := ⟨1000, 0⟩

/-- The all-steps-succeed environment at `t0`. -/
def envOk : Env :=
  { now := t0, fontRegularOk := true, fontBoldOk := true, outputOk := true,
    loadResultsOk := true, writeFileOk := true, setDocPathOk := true }

/-- A two-element catalog. -/
def catalogEg : List ElementCatalogItem := [⟨100, "Foundation"⟩, ⟨101, "Roof"⟩]

/-- Checklist 1, first element (catalog item 100, order index 1). -/
def ceFoundation : ChecklistElement := ⟨10, 1, 100, 1⟩

/-- Checklist 1, second element (catalog item 101, order index 2). -/
def ceRoof : ChecklistElement := ⟨11, 1, 101, 2⟩

/-- Task 1 over building 1, checklist 1, inspector 1, in the given state. -/
def taskEg (st : Status) : Task := ⟨1, 1, 1, 1, st⟩

/-- A store holding task 1 in the given state, the two-element checklist,
and no results or acts. -/
def dbEg (st : Status) : DB :=
  { tasks := [taskEg st], checklistElements := [ceFoundation, ceRoof],
    elementCatalog := catalogEg, results := [], acts := [] }

/-- `dbEg` with an empty document storage. -/
def wEg (st : Status) : World := ⟨dbEg st, []⟩

/-- A world with no tasks at all. -/
def wEmpty : World := ⟨⟨[], [], [], [], []⟩, []⟩

/-! ## Helper lemmas -/

/-- Filtering after a filter-guarded pointwise update is the same as
updating the filtered sublist, provided the update preserves the
predicate. -/
theorem filter_map_update {α : Type} (p : α → Bool) (g : α → α) (l : List α)
    (hg : ∀ a, p a = true → p (g a) = true) :
    (l.map (fun a => if p a then g a else a)).filter p = (l.filter p).map g := by
  induction l with
  | nil => rfl
  | cons a l ih =>
    cases h : p a with
    | false => simp [List.filter_cons, h, ih]
    | true => simp [List.filter_cons, h, hg a h, ih]

/-- The status-keyed `find?` after the status update of `setTaskStatus`. -/
theorem find?_status_update (l : List Task) (id : Nat) (st : Status) :
    (l.map (fun t => if t.id == id then { t with status := st } else t)).find?
        (fun t => t.id == id)
      = (l.find? (fun t => t.id == id)).map (fun t => { t with status := st }) := by
  induction l with
  | nil => rfl
  | cons a l ih =>
    cases hb : (a.id == id) with
    | true =>
      rw [List.map_cons, if_pos hb,
        List.find?_cons_of_pos (p := fun t : Task => t.id == id) _ (by simpa using hb),
        List.find?_cons_of_pos (p := fun t : Task => t.id == id) _ hb]
      rfl
    | false =>
      rw [List.map_cons, if_neg (by simp [hb]),
        List.find?_cons_of_neg (p := fun t : Task => t.id == id) _ (by simp [hb]),
        List.find?_cons_of_neg (p := fun t : Task => t.id == id) _ (by simp [hb])]
      exact ih

theorem setTaskStatus_fs (w : World) (id : Nat) (st : Status) :
    (setTaskStatus w id st).fs = w.fs := rfl

theorem setTaskStatus_acts (w : World) (id : Nat) (st : Status) :
    (setTaskStatus w id st).db.acts = w.db.acts := rfl

theorem setTaskStatus_results (w : World) (id : Nat) (st : Status) :
    (setTaskStatus w id st).db.results = w.db.results := rfl

theorem findTask_setTaskStatus (w : World) (id : Nat) (st : Status) :
    findTask (setTaskStatus w id st).db id
      = (findTask w.db id).map (fun t => { t with status := st }) := by
  unfold findTask setTaskStatus
  exact find?_status_update w.db.tasks id st

theorem updateActs_tasks (db : DB) (tid : Nat) (f : InspectionAct → InspectionAct) :
    (updateActs db tid f).tasks = db.tasks := rfl

theorem updateActs_results (db : DB) (tid : Nat) (f : InspectionAct → InspectionAct) :
    (updateActs db tid f).results = db.results := rfl

/-- An `UpdateOne` keyed by `task_id` maps the act rows of that task. -/
theorem actsForTask_updateActs (db : DB) (tid : Nat) (f : InspectionAct → InspectionAct)
    (hf : ∀ a, (f a).taskId = a.taskId) :
    actsForTask (updateActs db tid f) tid = (actsForTask db tid).map f := by
  unfold actsForTask updateActs
  exact filter_map_update (fun a => a.taskId == tid) f db.acts
    (fun a ha => by simpa [hf a] using ha)

/-- The single act row of a task carries that task's id. -/
theorem actsForTask_taskId {db : DB} {tid : Nat} {a : InspectionAct}
    (h : actsForTask db tid = [a]) : a.taskId = tid := by
  have hm : a ∈ actsForTask db tid := by rw [h]; exact List.mem_singleton.mpr rfl
  have := List.of_mem_filter hm
  simpa using this

/-- The single result row of a pair carries the pair's keys. -/
theorem resultsForPair_keys {db : DB} {tid eid : Nat} {r : InspectionResult}
    (h : resultsForPair db tid eid = [r]) :
    r.taskId = tid ∧ r.checklistElementId = eid := by
  have hm : r ∈ resultsForPair db tid eid := by rw [h]; exact List.mem_singleton.mpr rfl
  have := List.of_mem_filter hm
  simpa using this

theorem readFile_writeFile_self (fs : List (String × Document)) (p : String) (d : Document) :
    readFile (writeFile fs p d) p = some d := by
  simp [readFile, writeFile, List.find?_cons]

/-- A `find?` is unchanged by a `filter` that keeps every hit. -/
theorem find?_filter_of_imp {α : Type} (p q : α → Bool) (l : List α)
    (hpq : ∀ a, q a = true → p a = true) :
    (l.filter p).find? q = l.find? q := by
  induction l with
  | nil => rfl
  | cons a l ih =>
    cases hq : q a with
    | true =>
      rw [List.filter_cons_of_pos (hpq a hq), List.find?_cons_of_pos _ hq,
        List.find?_cons_of_pos _ hq]
    | false =>
      rw [List.find?_cons_of_neg _ (by simp [hq])]
      cases hp : p a with
      | true =>
        rw [List.filter_cons_of_pos hp, List.find?_cons_of_neg _ (by simp [hq])]
        exact ih
      | false =>
        rw [List.filter_cons_of_neg (by simp [hp])]
        exact ih

theorem readFile_writeFile_ne (fs : List (String × Document)) (p q : String) (d : Document)
    (h : q ≠ p) : readFile (writeFile fs p d) q = readFile fs q := by
  unfold readFile writeFile
  have hhead : ¬((fun e : String × Document => e.1 == q) (p, d) = true) := by
    simp only [beq_iff_eq]
    exact fun hpq => h hpq.symm
  rw [List.find?_cons_of_neg (p := fun e : String × Document => e.1 == q) _ hhead]
  rw [find?_filter_of_imp]
  intro e he
  have heq : e.1 = q := by simpa using he
  simp [bne, heq, h]

theorem readFile_removeFile_self (fs : List (String × Document)) (p : String) :
    readFile (removeFile fs p) p = none := by
  unfold readFile removeFile
  have hfind : List.find? (fun e => e.1 == p) (List.filter (fun e => e.1 != p) fs) = none := by
    rw [List.find?_eq_none]
    intro e he
    have := List.of_mem_filter he
    simp only [bne_iff_ne, ne_eq] at this
    simp [this]
  rw [hfind]
  rfl

/-! ## Operation-level lemmas -/

/-- The fresh act row `CreateOrUpdateAct` inserts when none exists. -/
def draftAct (env : Env) (taskId : Nat) (conclusion : String) : InspectionAct :=
  { taskId := taskId, createdAt := env.now, approvedAt := none,
    status := draftedStatus, conclusion := conclusion, documentPath := "" }

theorem createOrUpdateAct_tasks (env : Env) (w : World) (taskId : Nat) (c : String) :
    (createOrUpdateAct env w taskId c).2.db.tasks = w.db.tasks := by
  unfold createOrUpdateAct
  split <;> rfl

theorem createOrUpdateAct_fs (env : Env) (w : World) (taskId : Nat) (c : String) :
    (createOrUpdateAct env w taskId c).2.fs = w.fs := by
  unfold createOrUpdateAct
  split <;> rfl

theorem createOrUpdateAct_of_empty (env : Env) (w : World) (taskId : Nat) (c : String)
    (h : actsForTask w.db taskId = []) :
    createOrUpdateAct env w taskId c =
      (.ok (draftAct env taskId c),
       { w with db := { w.db with acts := w.db.acts ++ [draftAct env taskId c] } }) := by
  unfold createOrUpdateAct onlyAct
  rw [h]
  rfl

theorem createOrUpdateAct_of_single (env : Env) (w : World) (taskId : Nat) (c : String)
    (a : InspectionAct) (h : actsForTask w.db taskId = [a]) :
    createOrUpdateAct env w taskId c =
      (.ok { a with conclusion := c },
       { w with db := updateActs w.db taskId (setConclusion c) }) := by
  unfold createOrUpdateAct onlyAct
  rw [h]

theorem actsForTask_append_draft (db : DB) (taskId : Nat) (a : InspectionAct)
    (ha : a.taskId = taskId) :
    actsForTask { db with acts := db.acts ++ [a] } taskId = actsForTask db taskId ++ [a] := by
  unfold actsForTask
  rw [List.filter_append]
  simp [ha]

theorem actsForTask_createOrUpdateAct_empty (env : Env) (w : World) (taskId : Nat) (c : String)
    (h : actsForTask w.db taskId = []) :
    actsForTask (createOrUpdateAct env w taskId c).2.db taskId = [draftAct env taskId c] := by
  rw [createOrUpdateAct_of_empty env w taskId c h]
  dsimp only
  rw [actsForTask_append_draft w.db taskId (draftAct env taskId c) rfl]
  rw [h]
  rfl

theorem actsForTask_createOrUpdateAct_single (env : Env) (w : World) (taskId : Nat) (c : String)
    (a : InspectionAct) (h : actsForTask w.db taskId = [a]) :
    actsForTask (createOrUpdateAct env w taskId c).2.db taskId = [{ a with conclusion := c }] := by
  rw [createOrUpdateAct_of_single env w taskId c a h]
  dsimp only
  rw [actsForTask_updateActs w.db taskId (setConclusion c) (fun x => rfl)]
  rw [h]
  rfl

theorem approveAct_of_empty (env : Env) (w : World) (taskId : Nat)
    (h : actsForTask w.db taskId = []) :
    approveAct env w taskId = (.error .actNotFound, w) := by
  unfold approveAct onlyAct
  rw [h]

theorem approveAct_tasks (env : Env) (w : World) (taskId : Nat) :
    (approveAct env w taskId).2.db.tasks = w.db.tasks := by
  unfold approveAct
  split
  · rfl
  · rfl
  · dsimp only
    split
    · rfl
    · split
      · rfl
      · split
        · rfl
        · split <;> rfl

theorem generatePDF_filename {env : Env} {db : DB} {act : InspectionAct}
    {rs : List InspectionResult} {d : Document} {fn : String}
    (h : generatePDF env db act rs = .ok (d, fn)) :
    fn = actFilename act.taskId env.now := by
  unfold generatePDF at h
  split at h
  · cases h
  · split at h
    · cases h
    · split at h
      · cases h
      · split at h
        · cases h
        · simp only [Except.ok.injEq, Prod.mk.injEq] at h
          exact h.2.symm

theorem generatePDF_of_flags {env : Env} {db : DB} {act : InspectionAct}
    {rs : List InspectionResult} {t : Task}
    (hf : findTask db act.taskId = some t)
    (h1 : env.fontRegularOk = true) (h2 : env.fontBoldOk = true) (h3 : env.outputOk = true) :
    generatePDF env db act rs =
      .ok (renderedDocument env db.checklistElements db.elementCatalog act rs,
           actFilename act.taskId env.now) := by
  unfold generatePDF
  rw [hf]
  simp [h1, h2, h3]

theorem updateTaskStatus_of_none {env : Env} {w : World} {id : Nat} {st : Status}
    (h : findTask w.db id = none) :
    updateTaskStatus env w id st = (.error .taskNotFound, w) := by
  unfold updateTaskStatus
  rw [h]

theorem updateTaskStatus_of_notAllowed {env : Env} {w : World} {id : Nat} {st : Status} {t : Task}
    (h : findTask w.db id = some t) (ha : isTransitionAllowed t.status st = false) :
    updateTaskStatus env w id st = (.error .invalidStatusTransition, w) := by
  unfold updateTaskStatus
  rw [h]
  simp [ha]

theorem updateTaskStatus_of_plain {env : Env} {w : World} {id : Nat} {st : Status} {t : Task}
    (h : findTask w.db id = some t) (ha : isTransitionAllowed t.status st = true)
    (h1 : st ≠ .OnReview) (h2 : st ≠ .Approved) :
    updateTaskStatus env w id st = (.ok (), setTaskStatus w id st) := by
  unfold updateTaskStatus
  rw [h]
  simp [ha, h1, h2]

theorem updateTaskStatus_of_onReview {env : Env} {w : World} {id : Nat} {t : Task}
    (h : findTask w.db id = some t) (ha : isTransitionAllowed t.status .OnReview = true) :
    updateTaskStatus env w id .OnReview =
      (.ok (), (createOrUpdateAct env (setTaskStatus w id .OnReview) id draftConclusion).2) := by
  unfold updateTaskStatus
  rw [h]
  simp [ha]

theorem updateTaskStatus_of_approved {env : Env} {w : World} {id : Nat} {t : Task}
    (h : findTask w.db id = some t) (ha : isTransitionAllowed t.status .Approved = true) :
    updateTaskStatus env w id .Approved =
      (.ok (), (approveAct env (setTaskStatus w id .Approved) id).2) := by
  unfold updateTaskStatus
  rw [h]
  simp [ha]

theorem actsForTask_updateActs_single {db : DB} {tid : Nat} {a : InspectionAct}
    (f : InspectionAct → InspectionAct) (hf : ∀ x, (f x).taskId = x.taskId)
    (h : actsForTask db tid = [a]) :
    actsForTask (updateActs db tid f) tid = [f a] := by
  rw [actsForTask_updateActs db tid f hf, h]
  rfl

/-- On a store with one act for the task, `ApproveAct` succeeds and the
final store holds the committed approval fields, with the document path
either untouched or pointing at the fresh render, depending on where the
best-effort pipeline stopped. -/
theorem approveAct_of_single (env : Env) (w : World) (taskId : Nat) (a : InspectionAct)
    (h : actsForTask w.db taskId = [a]) :
    ∃ fs',
      approveAct env w taskId =
          (.ok (), ⟨updateActs w.db taskId (commitApproval env), fs'⟩) ∨
      approveAct env w taskId =
          (.ok (), ⟨updateActs (updateActs w.db taskId (commitApproval env)) taskId
              (setDocPath (joinPath storageActs (actFilename taskId env.now))), fs'⟩) := by
  have hid : a.taskId = taskId := actsForTask_taskId h
  unfold approveAct onlyAct
  rw [h]
  dsimp only
  split
  · exact ⟨_, .inl rfl⟩
  · split
    · exact ⟨_, .inl rfl⟩
    · next doc filename heq =>
      have hfn : filename = actFilename taskId env.now := by
        have hx := generatePDF_filename heq
        rwa [show (commitApproval env a).taskId = a.taskId from rfl, hid] at hx
      subst hfn
      split
      · exact ⟨_, .inl rfl⟩
      · split
        · exact ⟨_, .inl rfl⟩
        · exact ⟨_, .inr rfl⟩

/-- `ApproveAct` when every infrastructure step succeeds: the approval
fields are committed, the old file (if any) is deleted, the fresh
document is written and its path recorded. -/
theorem approveAct_of_success (env : Env) (w : World) (taskId : Nat) (a : InspectionAct)
    (t : Task) (h : actsForTask w.db taskId = [a]) (ht : findTask w.db taskId = some t)
    (hL : env.loadResultsOk = true) (h1 : env.fontRegularOk = true)
    (h2 : env.fontBoldOk = true) (h3 : env.outputOk = true)
    (hW : env.writeFileOk = true) (hS : env.setDocPathOk = true) :
    approveAct env w taskId =
      (.ok (), ⟨updateActs (updateActs w.db taskId (commitApproval env)) taskId
          (setDocPath (joinPath storageActs (actFilename taskId env.now))),
        writeFile (if a.documentPath != "" then removeFile w.fs a.documentPath else w.fs)
          (joinPath storageActs (actFilename taskId env.now))
          (renderedDocument env w.db.checklistElements w.db.elementCatalog
            (commitApproval env a) (resultsForTask w.db taskId))⟩) := by
  have hid : a.taskId = taskId := actsForTask_taskId h
  have hf : findTask (updateActs w.db taskId (commitApproval env))
      (commitApproval env a).taskId = some t := by
    show findTask w.db a.taskId = some t
    rw [hid]; exact ht
  unfold approveAct onlyAct
  rw [h]
  dsimp only
  rw [generatePDF_of_flags hf h1 h2 h3]
  simp only [hL, hW, hS, Bool.not_true, Bool.false_eq_true, if_false]
  rw [show (commitApproval env a).taskId = taskId from hid]
  exact rfl

/-- `GeneratePDFForAct` on a task with no act row. -/
theorem generatePDFForAct_of_empty (env : Env) (w : World) (taskId : Nat)
    (h : actsForTask w.db taskId = []) :
    generatePDFForAct env w taskId = (.error .actNotFound, w) := by
  unfold generatePDFForAct onlyAct
  rw [h]

/-- `GeneratePDFForAct` on a cache hit: the stored document is returned
unchanged and nothing is written. -/
theorem generatePDFForAct_of_cached (env : Env) (w : World) (taskId : Nat)
    (a : InspectionAct) (doc : Document) (h : actsForTask w.db taskId = [a])
    (hc : cachedDocument w a = some doc) :
    generatePDFForAct env w taskId = (.ok (doc, baseName a.documentPath), w) := by
  unfold generatePDFForAct onlyAct
  rw [h]
  dsimp only
  rw [hc]

/-- `GeneratePDFForAct` on a cache miss with every step succeeding:
renders, writes the file and records its path. -/
theorem generatePDFForAct_of_fresh (env : Env) (w : World) (taskId : Nat)
    (a : InspectionAct) (t : Task) (h : actsForTask w.db taskId = [a])
    (hc : cachedDocument w a = none) (ht : findTask w.db taskId = some t)
    (hL : env.loadResultsOk = true) (h1 : env.fontRegularOk = true)
    (h2 : env.fontBoldOk = true) (h3 : env.outputOk = true)
    (hW : env.writeFileOk = true) (hS : env.setDocPathOk = true) :
    generatePDFForAct env w taskId =
      (.ok (renderedDocument env w.db.checklistElements w.db.elementCatalog a
              (resultsForTask w.db taskId),
            actFilename taskId env.now),
       ⟨updateActs w.db taskId
          (setDocPath (joinPath storageActs (actFilename taskId env.now))),
        writeFile w.fs (joinPath storageActs (actFilename taskId env.now))
          (renderedDocument env w.db.checklistElements w.db.elementCatalog a
            (resultsForTask w.db taskId))⟩) := by
  have hid : a.taskId = taskId := actsForTask_taskId h
  have hf : findTask w.db a.taskId = some t := by rw [hid]; exact ht
  unfold generatePDFForAct onlyAct
  rw [h]
  dsimp only
  rw [hc]
  rw [generatePDF_of_flags hf h1 h2 h3]
  simp only [hL, hW, hS, Bool.not_true, Bool.false_eq_true, if_false]
  rw [hid]

/-- `GeneratePDFForAct` cache-miss failure cases: the load, render and
write failures are surfaced to the caller with the world unchanged. -/
theorem generatePDFForAct_of_loadFail (env : Env) (w : World) (taskId : Nat)
    (a : InspectionAct) (h : actsForTask w.db taskId = [a])
    (hc : cachedDocument w a = none) (hL : env.loadResultsOk = false) :
    generatePDFForAct env w taskId = (.error .fetchResultsError, w) := by
  unfold generatePDFForAct onlyAct
  rw [h]
  dsimp only
  rw [hc]
  simp [hL]

theorem generatePDF_of_fontFail {env : Env} {db : DB} {act : InspectionAct}
    {rs : List InspectionResult} {t : Task}
    (hf : findTask db act.taskId = some t) (h1 : env.fontRegularOk = false) :
    generatePDF env db act rs = .error .fontLoadError := by
  unfold generatePDF
  rw [hf]
  simp [h1]

theorem generatePDFForAct_of_renderFail (env : Env) (w : World) (taskId : Nat)
    (a : InspectionAct) (t : Task) (h : actsForTask w.db taskId = [a])
    (hc : cachedDocument w a = none) (ht : findTask w.db taskId = some t)
    (hL : env.loadResultsOk = true) (h1 : env.fontRegularOk = false) :
    generatePDFForAct env w taskId = (.error .fontLoadError, w) := by
  have hid : a.taskId = taskId := actsForTask_taskId h
  have hf : findTask w.db a.taskId = some t := by rw [hid]; exact ht
  unfold generatePDFForAct onlyAct
  rw [h]
  dsimp only
  rw [hc]
  rw [generatePDF_of_fontFail hf h1]
  simp [hL]

theorem generatePDFForAct_of_writeFail (env : Env) (w : World) (taskId : Nat)
    (a : InspectionAct) (t : Task) (h : actsForTask w.db taskId = [a])
    (hc : cachedDocument w a = none) (ht : findTask w.db taskId = some t)
    (hL : env.loadResultsOk = true) (h1 : env.fontRegularOk = true)
    (h2 : env.fontBoldOk = true) (h3 : env.outputOk = true)
    (hW : env.writeFileOk = false) :
    generatePDFForAct env w taskId = (.error .saveFileError, w) := by
  have hid : a.taskId = taskId := actsForTask_taskId h
  have hf : findTask w.db a.taskId = some t := by rw [hid]; exact ht
  unfold generatePDFForAct onlyAct
  rw [h]
  dsimp only
  rw [hc]
  rw [generatePDF_of_flags hf h1 h2 h3]
  simp [hL, hW]

theorem validateTaskAndElement_of_none {db : DB} {tid eid : Nat}
    (h : findTask db tid = none) :
    validateTaskAndElement db tid eid = .error .taskNotFound := by
  unfold validateTaskAndElement
  rw [h]

theorem validateTaskAndElement_of_notInProgress {db : DB} {tid eid : Nat} {t : Task}
    (h : findTask db tid = some t) (hs : t.status ≠ .InProgress) :
    validateTaskAndElement db tid eid = .error .taskNotInProgress := by
  unfold validateTaskAndElement
  rw [h]
  simp [hs]

theorem validateTaskAndElement_of_notInChecklist {db : DB} {tid eid : Nat} {t : Task}
    (h : findTask db tid = some t) (hs : t.status = .InProgress)
    (he : elementInChecklist db t.checklistId eid = false) :
    validateTaskAndElement db tid eid = .error .checklistElementInvalid := by
  unfold validateTaskAndElement
  rw [h]
  simp [hs, he]

theorem validateTaskAndElement_of_valid {db : DB} {tid eid : Nat} {t : Task}
    (h : findTask db tid = some t) (hs : t.status = .InProgress)
    (he : elementInChecklist db t.checklistId eid = true) :
    validateTaskAndElement db tid eid = .ok () := by
  unfold validateTaskAndElement
  rw [h]
  simp [hs, he]

theorem createOrUpdateResult_of_error {w : World} {tid eid : Nat} {c : ConditionStatus}
    {m : Option String} {e : SvcErr}
    (h : validateTaskAndElement w.db tid eid = .error e) :
    createOrUpdateResult w tid eid c m = (.error e, w) := by
  unfold createOrUpdateResult
  rw [h]

/-- The row the upsert stores for (task, element, condition, comment). -/
def upsertRow (tid eid : Nat) (c : ConditionStatus) (m : Option String) : InspectionResult :=
  { taskId := tid, checklistElementId := eid, conditionStatus := c, comment := m.getD "" }

theorem resultsForPair_append (db : DB) (tid eid : Nat) (r : InspectionResult)
    (h1 : r.taskId = tid) (h2 : r.checklistElementId = eid) :
    resultsForPair { db with results := db.results ++ [r] } tid eid =
      resultsForPair db tid eid ++ [r] := by
  unfold resultsForPair
  rw [List.filter_append]
  simp [h1, h2]

theorem resultsForPair_update (db : DB) (tid eid : Nat) (c : ConditionStatus)
    (m : Option String) :
    resultsForPair { db with results := db.results.map (fun r =>
        if r.taskId == tid && r.checklistElementId == eid
        then { r with conditionStatus := c, comment := m.getD "" } else r) } tid eid =
      (resultsForPair db tid eid).map
        (fun r => { r with conditionStatus := c, comment := m.getD "" }) := by
  unfold resultsForPair
  exact filter_map_update _ _ _ (fun r hr => by simpa using hr)

/-- After a validated upsert the store holds exactly one row for the
pair, carrying the supplied condition and comment, and nothing else in
the store changed. -/
theorem createOrUpdateResult_of_valid (w : World) (tid eid : Nat)
    (c : ConditionStatus) (m : Option String)
    (hv : validateTaskAndElement w.db tid eid = .ok ())
    (hc : (resultsForPair w.db tid eid).length ≤ 1) :
    (createOrUpdateResult w tid eid c m).1 = .ok (upsertRow tid eid c m) ∧
    resultsForPair (createOrUpdateResult w tid eid c m).2.db tid eid =
      [upsertRow tid eid c m] ∧
    (createOrUpdateResult w tid eid c m).2.db.tasks = w.db.tasks ∧
    (createOrUpdateResult w tid eid c m).2.db.checklistElements = w.db.checklistElements ∧
    (createOrUpdateResult w tid eid c m).2.db.acts = w.db.acts ∧
    (createOrUpdateResult w tid eid c m).2.fs = w.fs := by
  unfold createOrUpdateResult onlyResult
  rw [hv]
  dsimp only
  cases hp : resultsForPair w.db tid eid with
  | nil =>
    dsimp only
    refine ⟨rfl, ?_, rfl, rfl, rfl, rfl⟩
    dsimp only
    rw [resultsForPair_append w.db tid eid
      { taskId := tid, checklistElementId := eid, conditionStatus := c,
        comment := m.getD "" } rfl rfl]
    rw [hp]
    exact rfl
  | cons r0 rest =>
    cases rest with
    | nil =>
      dsimp only
      obtain ⟨hk1, hk2⟩ := resultsForPair_keys hp
      refine ⟨rfl, ?_, rfl, rfl, rfl, rfl⟩
      dsimp only
      rw [resultsForPair_update w.db tid eid c m]
      rw [hp]
      simp [upsertRow, hk1, hk2]
    | cons r1 rest2 =>
      rw [hp] at hc
      simp at hc

theorem findTask_eq_of_tasks {db1 db2 : DB} (h : db1.tasks = db2.tasks) (i : Nat) :
    findTask db1 i = findTask db2 i := by
  unfold findTask
  rw [h]

theorem actsForTask_eq_of_acts {db1 db2 : DB} (h : db1.acts = db2.acts) (i : Nat) :
    actsForTask db1 i = actsForTask db2 i := by
  unfold actsForTask
  rw [h]

/-! ## The claims -/

/-- C1: for every task and target status, `RequestTransition`
(`UpdateTaskStatus`) succeeds only when the target is in the
allowed-target set of the task's current status as given by the
seven-state table (New→{Pending,Canceled}, Pending→{InProgress,Canceled},
InProgress→{OnReview,Canceled}, OnReview→{Approved,ForRevision},
ForRevision→{OnReview,Canceled}, Approved→{}, Canceled→{}); it fails with
the task-not-found error when the task does not exist and with the
invalid-transition error on every remaining disallowed pair, leaving the
world — in particular the status — unchanged in both failure cases. -/
theorem C1_transition_table_and_guards :
    (∀ cur tgt : Status, isTransitionAllowed cur tgt = true ↔
        (cur, tgt) ∈ ([(.New, .Pending), (.New, .Canceled),
          (.Pending, .InProgress), (.Pending, .Canceled),
          (.InProgress, .OnReview), (.InProgress, .Canceled),
          (.OnReview, .Approved), (.OnReview, .ForRevision),
          (.ForRevision, .OnReview), (.ForRevision, .Canceled)] :
            List (Status × Status))) ∧
    (∀ (env : Env) (w : World) (id : Nat) (tgt : Status), findTask w.db id = none →
        updateTaskStatus env w id tgt = (.error .taskNotFound, w)) ∧
    (∀ (env : Env) (w : World) (id : Nat) (tgt : Status) (t : Task),
        findTask w.db id = some t → isTransitionAllowed t.status tgt = false →
        updateTaskStatus env w id tgt = (.error .invalidStatusTransition, w)) ∧
    (∀ (env : Env) (w : World) (id : Nat) (tgt : Status),
        (updateTaskStatus env w id tgt).1 = .ok () →
        ∃ t, findTask w.db id = some t ∧ isTransitionAllowed t.status tgt = true) := by
  refine ⟨?_, ?_, ?_, ?_⟩
  · intro cur tgt
    cases cur <;> cases tgt <;> decide
  · intro env w id tgt h
    exact updateTaskStatus_of_none h
  · intro env w id tgt t h ha
    exact updateTaskStatus_of_notAllowed h ha
  · intro env w id tgt hok
    cases hx : findTask w.db id with
    | none =>
      rw [updateTaskStatus_of_none hx] at hok
      cases hok
    | some t =>
      cases ha : isTransitionAllowed t.status tgt with
      | true => exact ⟨t, rfl, ha⟩
      | false =>
        rw [updateTaskStatus_of_notAllowed hx ha] at hok
        cases hok

/-- C1 witness: the guards evaluated on concrete worlds. -/
theorem C1_witness :
    updateTaskStatus envOk wEmpty 1 .Pending = (.error .taskNotFound, wEmpty) ∧
    updateTaskStatus envOk (wEg .New) 1 .Approved =
      (.error .invalidStatusTransition, wEg .New) := by
  constructor
  · exact C1_transition_table_and_guards.2.1 envOk wEmpty 1 .Pending rfl
  · exact C1_transition_table_and_guards.2.2.1 envOk (wEg .New) 1 .Approved
      (taskEg .New) rfl rfl

/-- C2: on every permitted transition `UpdateTaskStatus` returns success
for every side-effect outcome, the persisted status is the new status in
the final world (never rolled back), and the final world is exactly the
target-selected side effect — act draft on `OnReview`, act approval on
`Approved`, nothing otherwise — applied to the world in which the new
status has already been persisted. -/
theorem C2_persist_then_single_side_effect :
    ∀ (env : Env) (w : World) (id : Nat) (tgt : Status) (t : Task),
      findTask w.db id = some t → isTransitionAllowed t.status tgt = true →
      (updateTaskStatus env w id tgt).1 = .ok () ∧
      findTask (updateTaskStatus env w id tgt).2.db id = some { t with status := tgt } ∧
      (tgt = .OnReview →
        updateTaskStatus env w id tgt =
          (.ok (), (createOrUpdateAct env (setTaskStatus w id tgt) id draftConclusion).2)) ∧
      (tgt = .Approved →
        updateTaskStatus env w id tgt =
          (.ok (), (approveAct env (setTaskStatus w id tgt) id).2)) ∧
      (tgt ≠ .OnReview → tgt ≠ .Approved →
        updateTaskStatus env w id tgt = (.ok (), setTaskStatus w id tgt)) := by
  intro env w id tgt t h ha
  by_cases h1 : tgt = .OnReview
  · subst h1
    rw [updateTaskStatus_of_onReview h ha]
    refine ⟨rfl, ?_, fun _ => rfl, ?_, ?_⟩
    · rw [findTask_eq_of_tasks
          (createOrUpdateAct_tasks env (setTaskStatus w id .OnReview) id draftConclusion) id,
        findTask_setTaskStatus, h]
      rfl
    · intro hc
      exact absurd hc (by decide)
    · intro hn _
      exact absurd rfl hn
  · by_cases h2 : tgt = .Approved
    · subst h2
      rw [updateTaskStatus_of_approved h ha]
      refine ⟨rfl, ?_, ?_, fun _ => rfl, ?_⟩
      · rw [findTask_eq_of_tasks (approveAct_tasks env (setTaskStatus w id .Approved) id) id,
          findTask_setTaskStatus, h]
        rfl
      · intro hc
        exact absurd hc (by decide)
      · intro _ hn
        exact absurd rfl hn
    · rw [updateTaskStatus_of_plain h ha h1 h2]
      refine ⟨rfl, ?_, ?_, ?_, fun _ _ => rfl⟩
      · rw [findTask_setTaskStatus, h]
        rfl
      · intro hc
        exact absurd hc h1
      · intro hc
        exact absurd hc h2

/-- C2 witness: a submit transition and a plain transition on concrete
worlds. -/
theorem C2_witness :
    (updateTaskStatus envOk (wEg .InProgress) 1 .OnReview).1 = .ok () ∧
    findTask (updateTaskStatus envOk (wEg .InProgress) 1 .OnReview).2.db 1 =
      some { taskEg .InProgress with status := .OnReview } ∧
    updateTaskStatus envOk (wEg .New) 1 .Pending =
      (.ok (), setTaskStatus (wEg .New) 1 .Pending) := by
  have h1 := C2_persist_then_single_side_effect envOk (wEg .InProgress) 1 .OnReview
    (taskEg .InProgress) rfl rfl
  have h2 := C2_persist_then_single_side_effect envOk (wEg .New) 1 .Pending
    (taskEg .New) rfl rfl
  exact ⟨h1.1, h1.2.1, h2.2.2.2.2 (by decide) (by decide)⟩

/-- C3: the guard ladder of `CreateOrUpdateResult` (`UpsertResult`):
task-not-found when the task is absent; task-not-in-progress for every
non-`InProgress` task regardless of checklist membership; element-invalid
for every element outside the task's checklist even when the task is
`InProgress` — and the world, in particular the result table, is
unchanged in every failure case. -/
theorem C3_upsert_guard_ladder :
    ∀ (w : World) (tid eid : Nat) (c : ConditionStatus) (m : Option String),
      (findTask w.db tid = none →
        createOrUpdateResult w tid eid c m = (.error .taskNotFound, w)) ∧
      (∀ t, findTask w.db tid = some t → t.status ≠ .InProgress →
        createOrUpdateResult w tid eid c m = (.error .taskNotInProgress, w)) ∧
      (∀ t, findTask w.db tid = some t → t.status = .InProgress →
        elementInChecklist w.db t.checklistId eid = false →
        createOrUpdateResult w tid eid c m = (.error .checklistElementInvalid, w)) := by
  intro w tid eid c m
  refine ⟨?_, ?_, ?_⟩
  · intro h
    exact createOrUpdateResult_of_error (validateTaskAndElement_of_none h)
  · intro t h hs
    exact createOrUpdateResult_of_error (validateTaskAndElement_of_notInProgress h hs)
  · intro t h hs he
    exact createOrUpdateResult_of_error (validateTaskAndElement_of_notInChecklist h hs he)

/-- C3 witness: the three failure rungs on concrete worlds. -/
theorem C3_witness :
    createOrUpdateResult wEmpty 1 10 .sound none = (.error .taskNotFound, wEmpty) ∧
    createOrUpdateResult (wEg .Pending) 1 10 .sound none =
      (.error .taskNotInProgress, wEg .Pending) ∧
    createOrUpdateResult (wEg .InProgress) 1 99 .sound none =
      (.error .checklistElementInvalid, wEg .InProgress) := by
  refine ⟨?_, ?_, ?_⟩
  · exact (C3_upsert_guard_ladder wEmpty 1 10 .sound none).1 rfl
  · exact (C3_upsert_guard_ladder (wEg .Pending) 1 10 .sound none).2.1
      (taskEg .Pending) rfl (by decide)
  · exact (C3_upsert_guard_ladder (wEg .InProgress) 1 99 .sound none).2.2
      (taskEg .InProgress) rfl rfl (by decide)

theorem elementInChecklist_eq_of_elements {db1 db2 : DB}
    (h : db1.checklistElements = db2.checklistElements) (cid eid : Nat) :
    elementInChecklist db1 cid eid = elementInChecklist db2 cid eid := by
  unfold elementInChecklist
  rw [h]

/-- C4: upsert idempotence — for a task in `InProgress` and an element of
its checklist, two `UpsertResult` calls for the same pair leave exactly
one result row for the pair, carrying the second call's condition and
comment (the comment cleared to the zero value when the second call
supplies none). -/
theorem C4_upsert_idempotence :
    ∀ (w : World) (tid eid : Nat) (t : Task) (c₁ c₂ : ConditionStatus)
      (m₁ m₂ : Option String),
      findTask w.db tid = some t → t.status = .InProgress →
      elementInChecklist w.db t.checklistId eid = true →
      (resultsForPair w.db tid eid).length ≤ 1 →
      (createOrUpdateResult w tid eid c₁ m₁).1 = .ok (upsertRow tid eid c₁ m₁) ∧
      (createOrUpdateResult (createOrUpdateResult w tid eid c₁ m₁).2 tid eid c₂ m₂).1 =
        .ok (upsertRow tid eid c₂ m₂) ∧
      resultsForPair
        (createOrUpdateResult (createOrUpdateResult w tid eid c₁ m₁).2 tid eid c₂ m₂).2.db
        tid eid = [upsertRow tid eid c₂ m₂] := by
  intro w tid eid t c₁ c₂ m₁ m₂ h hs he hc
  have hv₁ := validateTaskAndElement_of_valid h hs he
  have s₁ := createOrUpdateResult_of_valid w tid eid c₁ m₁ hv₁ hc
  have hts : findTask (createOrUpdateResult w tid eid c₁ m₁).2.db tid = some t := by
    rw [findTask_eq_of_tasks s₁.2.2.1]
    exact h
  have hel : elementInChecklist (createOrUpdateResult w tid eid c₁ m₁).2.db
      t.checklistId eid = true := by
    rw [elementInChecklist_eq_of_elements s₁.2.2.2.1]
    exact he
  have hv₂ := validateTaskAndElement_of_valid hts hs hel
  have hc₂ : (resultsForPair (createOrUpdateResult w tid eid c₁ m₁).2.db tid eid).length
      ≤ 1 := by
    rw [s₁.2.1]
    exact Nat.le_refl 1
  have s₂ := createOrUpdateResult_of_valid
    (createOrUpdateResult w tid eid c₁ m₁).2 tid eid c₂ m₂ hv₂ hc₂
  exact ⟨s₁.1, s₂.1, s₂.2.1⟩

/-- C4 witness: two upserts for the same pair on a concrete world; the
second call clears the comment. -/
theorem C4_witness :
    (createOrUpdateResult
        (createOrUpdateResult (wEg .InProgress) 1 10 .sound (some "ok")).2
        1 10 .emergency none).1 = .ok (upsertRow 1 10 .emergency none) ∧
    resultsForPair
      (createOrUpdateResult
        (createOrUpdateResult (wEg .InProgress) 1 10 .sound (some "ok")).2
        1 10 .emergency none).2.db 1 10 = [upsertRow 1 10 .emergency none] := by
  have h := C4_upsert_idempotence (wEg .InProgress) 1 10 (taskEg .InProgress)
    .sound .emergency (some "ok") none rfl rfl (by decide) (by decide)
  exact ⟨h.2.1, h.2.2⟩

/-- C5: the first transition into `OnReview` creates exactly one act row,
drafted, with the supplied conclusion and no document pointer; every
later create-or-refresh call for the task updates only that row's
conclusion — one row remains and every other field, in particular the
document pointer, is unchanged — and no file is touched either way. -/
theorem C5_act_draft_create_or_refresh :
    ∀ (env : Env) (w : World) (tid : Nat) (c : String),
      (actsForTask w.db tid = [] →
        actsForTask (createOrUpdateAct env w tid c).2.db tid = [draftAct env tid c] ∧
        (createOrUpdateAct env w tid c).2.fs = w.fs) ∧
      (∀ a, actsForTask w.db tid = [a] →
        actsForTask (createOrUpdateAct env w tid c).2.db tid =
          [{ a with conclusion := c }] ∧
        (createOrUpdateAct env w tid c).2.fs = w.fs) ∧
      (∀ t, findTask w.db tid = some t → isTransitionAllowed t.status .OnReview = true →
        actsForTask w.db tid = [] →
        actsForTask (updateTaskStatus env w tid .OnReview).2.db tid =
          [draftAct env tid draftConclusion]) := by
  intro env w tid c
  refine ⟨?_, ?_, ?_⟩
  · intro h
    exact ⟨actsForTask_createOrUpdateAct_empty env w tid c h,
      createOrUpdateAct_fs env w tid c⟩
  · intro a h
    exact ⟨actsForTask_createOrUpdateAct_single env w tid c a h,
      createOrUpdateAct_fs env w tid c⟩
  · intro t h ha hacts
    rw [updateTaskStatus_of_onReview h ha]
    have hacts' : actsForTask (setTaskStatus w tid .OnReview).db tid = [] := by
      rw [actsForTask_eq_of_acts (setTaskStatus_acts w tid .OnReview) tid]
      exact hacts
    exact actsForTask_createOrUpdateAct_empty env (setTaskStatus w tid .OnReview) tid
      draftConclusion hacts'

/-- C10 (implicit): for a task in `InProgress` the submit transition
(`InProgress → OnReview`) succeeds with no condition whatsoever on the
recorded results — in particular with zero results — and the drafted act
is still created. -/
theorem C10_submit_ignores_completeness :
    ∀ (env : Env) (w : World) (id : Nat) (t : Task),
      findTask w.db id = some t → t.status = .InProgress →
      (updateTaskStatus env w id .OnReview).1 = .ok () ∧
      findTask (updateTaskStatus env w id .OnReview).2.db id =
        some { t with status := .OnReview } ∧
      (actsForTask w.db id = [] →
        actsForTask (updateTaskStatus env w id .OnReview).2.db id =
          [draftAct env id draftConclusion]) := by
  intro env w id t h hs
  have ha : isTransitionAllowed t.status .OnReview = true := by rw [hs]; rfl
  rw [updateTaskStatus_of_onReview h ha]
  refine ⟨rfl, ?_, ?_⟩
  · rw [findTask_eq_of_tasks
        (createOrUpdateAct_tasks env (setTaskStatus w id .OnReview) id draftConclusion) id,
      findTask_setTaskStatus, h]
    rfl
  · intro hacts
    have hacts' : actsForTask (setTaskStatus w id .OnReview).db id = [] := by
      rw [actsForTask_eq_of_acts (setTaskStatus_acts w id .OnReview) id]
      exact hacts
    exact actsForTask_createOrUpdateAct_empty env (setTaskStatus w id .OnReview) id
      draftConclusion hacts'

/-- C10 witness: submitting a task that has zero recorded results. -/
theorem C10_witness :
    resultsForTask (wEg .InProgress).db 1 = [] ∧
    (updateTaskStatus envOk (wEg .InProgress) 1 .OnReview).1 = .ok () ∧
    actsForTask (updateTaskStatus envOk (wEg .InProgress) 1 .OnReview).2.db 1 =
      [draftAct envOk 1 draftConclusion] := by
  have h := C10_submit_ignores_completeness envOk (wEg .InProgress) 1
    (taskEg .InProgress) rfl rfl
  exact ⟨rfl, h.1, h.2.2 rfl⟩

/-- An existing drafted act for task 1 with a recorded document path. -/
def actEg : InspectionAct := ⟨1, t0, none, draftedStatus, "первичное заключение", "storage/acts/old.pdf"⟩

/-- `dbEg` carrying `actEg`, with an empty document storage (so the
recorded path is unreadable — a cache miss). -/
def wWithAct (st : Status) : World := ⟨{ dbEg st with acts := [actEg] }, []⟩

/-- A stored document, used for cache-hit fixtures. -/
def docEg : Document := ⟨t0, draftedStatus, none, "из кеша", [], 0⟩

/-- `dbEg` carrying `actEg`, with the recorded document present on disk. -/
def wCachedEg (st : Status) : World :=
  ⟨{ dbEg st with acts := [actEg] }, [("storage/acts/old.pdf", docEg)]⟩

/-- C5 witness: the first draft creation and a later refresh on concrete
worlds. -/
theorem C5_witness :
    actsForTask (createOrUpdateAct envOk (wEg .InProgress) 1 "осмотрено").2.db 1 =
      [draftAct envOk 1 "осмотрено"] ∧
    actsForTask (createOrUpdateAct envOk (wWithAct .ForRevision) 1 "повторно").2.db 1 =
      [{ actEg with conclusion := "повторно" }] := by
  have h1 := (C5_act_draft_create_or_refresh envOk (wEg .InProgress) 1 "осмотрено").1 rfl
  have h2 := (C5_act_draft_create_or_refresh envOk (wWithAct .ForRevision) 1 "повторно").2.1
    actEg rfl
  exact ⟨h1.1, h2.1⟩

/-- C6: `ApproveAct` fails with the act-not-found error and changes
nothing when no act exists; otherwise, for every outcome of the
best-effort pipeline, it returns success and the surviving single act row
carries the approval timestamp `now`, the approved status and the fixed
approval conclusion; and when every step succeeds the old rendered file
is deleted, a fresh document is written and its path recorded on the
act. -/
theorem C6_approve_commit_and_best_effort :
    ∀ (env : Env) (w : World) (tid : Nat),
      (actsForTask w.db tid = [] → approveAct env w tid = (.error .actNotFound, w)) ∧
      (∀ a, actsForTask w.db tid = [a] →
        (approveAct env w tid).1 = .ok () ∧
        (actsForTask (approveAct env w tid).2.db tid = [commitApproval env a] ∨
         actsForTask (approveAct env w tid).2.db tid =
           [setDocPath (joinPath storageActs (actFilename tid env.now))
             (commitApproval env a)])) ∧
      (∀ a t, actsForTask w.db tid = [a] → findTask w.db tid = some t →
        env.loadResultsOk = true → env.fontRegularOk = true → env.fontBoldOk = true →
        env.outputOk = true → env.writeFileOk = true → env.setDocPathOk = true →
        actsForTask (approveAct env w tid).2.db tid =
          [setDocPath (joinPath storageActs (actFilename tid env.now))
            (commitApproval env a)] ∧
        readFile (approveAct env w tid).2.fs
            (joinPath storageActs (actFilename tid env.now)) =
          some (renderedDocument env w.db.checklistElements w.db.elementCatalog
            (commitApproval env a) (resultsForTask w.db tid)) ∧
        (a.documentPath ≠ "" →
          a.documentPath ≠ joinPath storageActs (actFilename tid env.now) →
          readFile (approveAct env w tid).2.fs a.documentPath = none)) := by
  intro env w tid
  refine ⟨?_, ?_, ?_⟩
  · intro h
    exact approveAct_of_empty env w tid h
  · intro a h
    obtain ⟨fs', hcase⟩ := approveAct_of_single env w tid a h
    cases hcase with
    | inl he =>
      rw [he]
      exact ⟨rfl, .inl (actsForTask_updateActs_single (commitApproval env)
        (fun x => rfl) h)⟩
    | inr he =>
      rw [he]
      refine ⟨rfl, .inr ?_⟩
      exact actsForTask_updateActs_single
        (setDocPath (joinPath storageActs (actFilename tid env.now))) (fun x => rfl)
        (actsForTask_updateActs_single (commitApproval env) (fun x => rfl) h)
  · intro a t h ht hL h1 h2 h3 hW hS
    rw [approveAct_of_success env w tid a t h ht hL h1 h2 h3 hW hS]
    refine ⟨?_, ?_, ?_⟩
    · exact actsForTask_updateActs_single
        (setDocPath (joinPath storageActs (actFilename tid env.now))) (fun x => rfl)
        (actsForTask_updateActs_single (commitApproval env) (fun x => rfl) h)
    · exact readFile_writeFile_self _ _ _
    · intro hne hne2
      rw [readFile_writeFile_ne _ _ _ _ hne2]
      rw [if_pos (by simpa [bne_iff_ne] using hne)]
      exact readFile_removeFile_self _ _

/-- C6 witness: approving with no act, and a full successful approval on
a concrete world. -/
theorem C6_witness :
    approveAct envOk (wEg .OnReview) 1 = (.error .actNotFound, wEg .OnReview) ∧
    (approveAct envOk (wWithAct .OnReview) 1).1 = .ok () ∧
    actsForTask (approveAct envOk (wWithAct .OnReview) 1).2.db 1 =
      [setDocPath (joinPath storageActs (actFilename 1 envOk.now))
        (commitApproval envOk actEg)] := by
  have ha := (C6_approve_commit_and_best_effort envOk (wEg .OnReview) 1).1 rfl
  have hb := (C6_approve_commit_and_best_effort envOk (wWithAct .OnReview) 1).2.1 actEg rfl
  have hcp := (C6_approve_commit_and_best_effort envOk (wWithAct .OnReview) 1).2.2 actEg
    (taskEg .OnReview) rfl rfl rfl rfl rfl rfl rfl rfl
  exact ⟨ha, hb.1, hcp.1⟩

/-- C7: `GeneratePDFForAct` fails with the act-not-found error when no
act exists; a set document pointer with a readable file is a cache hit
returning exactly the stored document and changing nothing; otherwise it
renders from the act and its results, writes the file, records its path
and returns the fresh document — and on this directly-requested path the
load, render and write failures are surfaced to the caller. -/
theorem C7_get_or_render_document :
    ∀ (env : Env) (w : World) (tid : Nat),
      (actsForTask w.db tid = [] →
        generatePDFForAct env w tid = (.error .actNotFound, w)) ∧
      (∀ a doc, actsForTask w.db tid = [a] → cachedDocument w a = some doc →
        generatePDFForAct env w tid = (.ok (doc, baseName a.documentPath), w)) ∧
      (∀ a t, actsForTask w.db tid = [a] → cachedDocument w a = none →
        findTask w.db tid = some t →
        env.loadResultsOk = true → env.fontRegularOk = true → env.fontBoldOk = true →
        env.outputOk = true → env.writeFileOk = true → env.setDocPathOk = true →
        (generatePDFForAct env w tid).1 =
          .ok (renderedDocument env w.db.checklistElements w.db.elementCatalog a
                 (resultsForTask w.db tid), actFilename tid env.now) ∧
        readFile (generatePDFForAct env w tid).2.fs
            (joinPath storageActs (actFilename tid env.now)) =
          some (renderedDocument env w.db.checklistElements w.db.elementCatalog a
                 (resultsForTask w.db tid)) ∧
        actsForTask (generatePDFForAct env w tid).2.db tid =
          [setDocPath (joinPath storageActs (actFilename tid env.now)) a]) ∧
      (∀ a t, actsForTask w.db tid = [a] → cachedDocument w a = none →
        findTask w.db tid = some t →
        (env.loadResultsOk = false →
          generatePDFForAct env w tid = (.error .fetchResultsError, w)) ∧
        (env.loadResultsOk = true → env.fontRegularOk = false →
          generatePDFForAct env w tid = (.error .fontLoadError, w)) ∧
        (env.loadResultsOk = true → env.fontRegularOk = true → env.fontBoldOk = true →
          env.outputOk = true → env.writeFileOk = false →
          generatePDFForAct env w tid = (.error .saveFileError, w))) := by
  intro env w tid
  refine ⟨?_, ?_, ?_, ?_⟩
  · intro h
    exact generatePDFForAct_of_empty env w tid h
  · intro a doc h hc
    exact generatePDFForAct_of_cached env w tid a doc h hc
  · intro a t h hc ht hL h1 h2 h3 hW hS
    rw [generatePDFForAct_of_fresh env w tid a t h hc ht hL h1 h2 h3 hW hS]
    refine ⟨rfl, ?_, ?_⟩
    · exact readFile_writeFile_self _ _ _
    · exact actsForTask_updateActs_single
        (setDocPath (joinPath storageActs (actFilename tid env.now))) (fun x => rfl) h
  · intro a t h hc ht
    refine ⟨?_, ?_, ?_⟩
    · intro hL
      exact generatePDFForAct_of_loadFail env w tid a h hc hL
    · intro hL h1
      exact generatePDFForAct_of_renderFail env w tid a t h hc ht hL h1
    · intro hL h1 h2 h3 hW
      exact generatePDFForAct_of_writeFail env w tid a t h hc ht hL h1 h2 h3 hW

/-- C7 witness: a missing act, a cache hit and a fresh render on
concrete worlds. -/
theorem C7_witness :
    generatePDFForAct envOk (wEg .OnReview) 1 = (.error .actNotFound, wEg .OnReview) ∧
    generatePDFForAct envOk (wCachedEg .OnReview) 1 =
      (.ok (docEg, baseName actEg.documentPath), wCachedEg .OnReview) ∧
    (generatePDFForAct envOk (wWithAct .OnReview) 1).1 =
      .ok (renderedDocument envOk (wWithAct .OnReview).db.checklistElements
             (wWithAct .OnReview).db.elementCatalog actEg
             (resultsForTask (wWithAct .OnReview).db 1),
           actFilename 1 envOk.now) := by
  have ha := (C7_get_or_render_document envOk (wEg .OnReview) 1).1 rfl
  have hb := (C7_get_or_render_document envOk (wCachedEg .OnReview) 1).2.1 actEg docEg
    rfl rfl
  have hcp := (C7_get_or_render_document envOk (wWithAct .OnReview) 1).2.2.1 actEg
    (taskEg .OnReview) rfl rfl rfl rfl rfl rfl rfl rfl rfl
  exact ⟨ha, hb, hcp.1⟩

/-! ## C8: row order of the rendered results table -/

theorem generatePDF_ok_doc {env : Env} {db : DB} {act : InspectionAct}
    {rs : List InspectionResult} {d : Document} {fn : String}
    (h : generatePDF env db act rs = .ok (d, fn)) :
    d = renderedDocument env db.checklistElements db.elementCatalog act rs := by
  unfold generatePDF at h
  split at h
  · cases h
  · split at h
    · cases h
    · split at h
      · cases h
      · split at h
        · cases h
        · simp only [Except.ok.injEq, Prod.mk.injEq] at h
          exact h.1.symm

theorem buildRows_length (ces : List ChecklistElement) (cat : List ElementCatalogItem)
    (i : Nat) (rs : List InspectionResult) :
    (buildRows ces cat i rs).length = rs.length := by
  induction rs generalizing i with
  | nil => rfl
  | cons r rs ih => simp [buildRows, ih]

theorem buildRows_getElem? (ces : List ChecklistElement) (cat : List ElementCatalogItem)
    (i k : Nat) (rs : List InspectionResult) :
    (buildRows ces cat i rs)[k]? = rs[k]?.map (fun r =>
      { seq := i + k + 1, elementName := elementName ces cat r,
        condition := conditionLabel r.conditionStatus, comment := r.comment }) := by
  induction rs generalizing i k with
  | nil => simp [buildRows]
  | cons r rs ih =>
    cases k with
    | zero => simp [buildRows]
    | succ k =>
      have h1 : (buildRows ces cat i (r :: rs))[k + 1]? = (buildRows ces cat (i + 1) rs)[k]? := by
        simp [buildRows]
      rw [h1, ih (i + 1) k]
      have h2 : ((r :: rs)[k + 1]? : Option InspectionResult) = rs[k]? := by simp
      rw [h2]
      cases hrk : (rs[k]? : Option InspectionResult) with
      | none => rfl
      | some r2 =>
        simp only [Option.map_some']
        have h3 : i + 1 + k + 1 = i + (k + 1) + 1 := by omega
        rw [h3]

/-- Observes the element names of the rendered result rows. -/
def renderRowNames : Except SvcErr (Document × String) → Option (List String)
  | .ok (d, _) => some (d.rows.map (fun row => row.elementName))
  | .error _ => none

/-- The checklist order index of each result's element, in the order the
result rows are stored. -/
def rowOrderIndexes (db : DB) (rs : List InspectionResult) : List Nat :=
  rs.map (fun r =>
    match db.checklistElements.find? (fun ce => ce.id == r.checklistElementId) with
    | some ce => ce.orderIndex
    | none => 0)

/-- Results for task 1 recorded in the reverse of the checklist order:
the Roof element (order index 2) first, Foundation (order index 1)
second. -/
def resultsRev : List InspectionResult :=
  [⟨1, 11, .emergency, "протечка"⟩, ⟨1, 10, .sound, ""⟩]

/-- The world of the C8 counterexample: a drafted act with no stored
document, the two-element checklist, and the two results recorded out of
checklist order. -/
def wRev : World :=
  ⟨{ tasks := [taskEg .OnReview], checklistElements := [ceFoundation, ceRoof],
     elementCatalog := catalogEg, results := resultsRev,
     acts := [⟨1, t0, none, draftedStatus, "выполнено", ""⟩] }, []⟩

/-- C8 counterexample: the claim that rendered rows appear in checklist
order-index order is false — on this concrete store the rendered rows
are [Roof, Foundation], the storage (insertion) order of the results,
whose order indexes [2, 1] are not sorted by the checklist order
index. -/
theorem C8_counterexample_rows_in_insertion_order :
    renderRowNames (generatePDFForAct envOk wRev 1).1 = some ["Roof", "Foundation"] ∧
    rowOrderIndexes wRev.db (resultsForTask wRev.db 1) = [2, 1] ∧
    ¬ List.Sorted (· ≤ ·) (rowOrderIndexes wRev.db (resultsForTask wRev.db 1)) := by
  refine ⟨by decide, by decide, ?_⟩
  rw [show rowOrderIndexes wRev.db (resultsForTask wRev.db 1) = [2, 1] from by decide]
  decide

/-- C8 corrected: the results table of a rendered document has exactly
one row per result of the supplied slice, and row `i` renders result `i`
of that slice — the storage (insertion) order of the result rows, with
sequence numbers counted from one — rather than being sorted by the
checklist order index. -/
theorem C8_rows_follow_storage_order :
    ∀ (env : Env) (db : DB) (act : InspectionAct) (rs : List InspectionResult)
      (d : Document) (fn : String),
      generatePDF env db act rs = .ok (d, fn) →
      d.rows.length = rs.length ∧
      ∀ i : Nat, d.rows[i]? = rs[i]?.map (fun r =>
        { seq := i + 1, elementName := elementName db.checklistElements db.elementCatalog r,
          condition := conditionLabel r.conditionStatus, comment := r.comment }) := by
  intro env db act rs d fn h
  have hd := generatePDF_ok_doc h
  subst hd
  constructor
  · exact buildRows_length db.checklistElements db.elementCatalog 0 rs
  · intro i
    have hb := buildRows_getElem? db.checklistElements db.elementCatalog 0 i rs
    simpa using hb

/-- C8 witness: the amended row property evaluated on the concrete
counterexample store. -/
theorem C8_witness :
    (renderedDocument envOk wRev.db.checklistElements wRev.db.elementCatalog
        (⟨1, t0, none, draftedStatus, "выполнено", ""⟩ : InspectionAct)
        (resultsForTask wRev.db 1)).rows.length = 2 ∧
    (renderedDocument envOk wRev.db.checklistElements wRev.db.elementCatalog
        (⟨1, t0, none, draftedStatus, "выполнено", ""⟩ : InspectionAct)
        (resultsForTask wRev.db 1)).rows[1]? =
      some { seq := 2, elementName := "Foundation",
             condition := conditionLabel .sound, comment := "" } := by
  have h := C8_rows_follow_storage_order envOk wRev.db
    ⟨1, t0, none, draftedStatus, "выполнено", ""⟩ (resultsForTask wRev.db 1)
    (renderedDocument envOk wRev.db.checklistElements wRev.db.elementCatalog
      ⟨1, t0, none, draftedStatus, "выполнено", ""⟩ (resultsForTask wRev.db 1))
    (actFilename 1 t0) rfl
  constructor
  · exact h.1
  · rw [h.2 1]
    decide

/-! ## C9: filename uniqueness across renders -/

theorem string_data_append : ∀ (a b : String), (a ++ b).data = a.data ++ b.data :=
  fun ⟨_⟩ ⟨_⟩ => rfl

theorem map_digitChar_inj : ∀ l₁ l₂ : List Nat, (∀ d ∈ l₁, d < 10) → (∀ d ∈ l₂, d < 10) →
    l₁.map digitChar = l₂.map digitChar → l₁ = l₂ := by
  intro l₁
  induction l₁ with
  | nil =>
    intro l₂ _ _ h
    cases l₂ with
    | nil => rfl
    | cons b l₂' => simp at h
  | cons a l ih =>
    intro l₂ h₁ h₂ h
    cases l₂ with
    | nil => simp at h
    | cons b l₂' =>
      simp only [List.map_cons, List.cons.injEq] at h
      have hdig : ∀ x, x < 10 → ∀ y, y < 10 → digitChar x = digitChar y → x = y := by decide
      have hab : a = b := hdig a (h₁ a (List.mem_cons_self a l))
        b (h₂ b (List.mem_cons_self b l₂')) h.1
      subst hab
      rw [ih l₂' (fun d hd => h₁ d (List.mem_cons_of_mem _ hd))
        (fun d hd => h₂ d (List.mem_cons_of_mem _ hd)) h.2]

/-- The second-granularity timestamp string determines the whole-second
instant. -/
theorem formatSeconds_data_inj {n₁ n₂ : GoTime}
    (h : (formatSeconds n₁).data = (formatSeconds n₂).data) : n₁.sec = n₂.sec := by
  have hl : ((Nat.digits 10 n₁.sec).reverse).map digitChar
      = ((Nat.digits 10 n₂.sec).reverse).map digitChar := h
  have hrev := map_digitChar_inj _ _
    (fun d hd => Nat.digits_lt_base (by norm_num) (List.mem_reverse.mp hd))
    (fun d hd => Nat.digits_lt_base (by norm_num) (List.mem_reverse.mp hd)) hl
  have hdig : Nat.digits 10 n₁.sec = Nat.digits 10 n₂.sec := List.reverse_inj.mp hrev
  have hof := congrArg (Nat.ofDigits 10) hdig
  simpa [Nat.ofDigits_digits] using hof

/-- Two renders of the same task get the same filename only when their
timestamps agree on the whole second. -/
theorem actFilename_inj {tid : Nat} {n₁ n₂ : GoTime}
    (h : actFilename tid n₁ = actFilename tid n₂) : n₁.sec = n₂.sec := by
  apply formatSeconds_data_inj
  have hd := congrArg String.data h
  simp only [actFilename, string_data_append, List.append_assoc] at hd
  have h1 := List.append_cancel_left hd
  have h2 := List.append_cancel_left h1
  have h3 := List.append_cancel_left h2
  exact List.append_cancel_right h3

/-- Observes only whether a render succeeded. -/
def renderOk : Except SvcErr (Document × String) → Bool
  | .ok _ => true
  | .error _ => false

/-- Observes only the filename of a successful render. -/
def renderFilename : Except SvcErr (Document × String) → Option String
  | .ok (_, fn) => some fn
  | .error _ => none

/-- The all-steps-succeed environment at a given instant. -/
def envAt (n : GoTime) : Env := { envOk with now := n }

/-- C9 counterexample: two distinct render invocations for the same task
— at different instants inside the same second — both succeed and
produce the same filename, so the filename is not unique per render and
the second render overwrites the first artifact. -/
theorem C9_counterexample_same_second_collision :
    renderOk (generatePDF (envAt ⟨100, 0⟩) (dbEg .OnReview) actEg []) = true ∧
    renderOk (generatePDF (envAt ⟨100, 999⟩) (dbEg .OnReview) actEg []) = true ∧
    renderFilename (generatePDF (envAt ⟨100, 0⟩) (dbEg .OnReview) actEg []) =
      renderFilename (generatePDF (envAt ⟨100, 999⟩) (dbEg .OnReview) actEg []) ∧
    (envAt ⟨100, 0⟩).now ≠ (envAt ⟨100, 999⟩).now :=
  ⟨rfl, rfl, rfl, by decide⟩

/-- C9 corrected: the artifact filename is `act_<taskId>_<timestamp>.pdf`
with a second-granularity timestamp, so every successful render's
filename is determined by the task id and the whole-second instant;
renders of the same task in different whole seconds always get distinct
filenames, and uniqueness can only fail within a single second (see the
counterexample). -/
theorem C9_filename_unique_across_seconds :
    (∀ (env : Env) (db : DB) (act : InspectionAct) (rs : List InspectionResult)
        (d : Document) (fn : String),
      generatePDF env db act rs = .ok (d, fn) → fn = actFilename act.taskId env.now) ∧
    (∀ (tid : Nat) (n₁ n₂ : GoTime), n₁.sec ≠ n₂.sec →
      actFilename tid n₁ ≠ actFilename tid n₂) := by
  constructor
  · intro env db act rs d fn h
    exact generatePDF_filename h
  · intro tid n₁ n₂ hne heq
    exact hne (actFilename_inj heq)

/-- C9 witness: two renders one second apart get distinct filenames. -/
theorem C9_witness :
    actFilename 1 ⟨100, 0⟩ ≠ actFilename 1 ⟨101, 0⟩ :=
  C9_filename_unique_across_seconds.2 1 ⟨100, 0⟩ ⟨101, 0⟩ (by decide)

end JKH
